import Mathlib

/-!
Verification of the transactional event-distribution subsystem of
happy-server-one: a shallow embedding of the Transaction Coordinator
(`inTx` / `afterTx`), the Sequence Allocator (`allocateUserSeq`), the
versioned-entity (OCC) update handlers, the KV mutation path
(`kvMutate`), the Event Router (`shouldSendToConnection`, `emit`,
connection registry) and the Activity Cache (`queueSessionUpdate`,
`queueMachineUpdate`, `flushPendingUpdates`), with theorems settling the
specification claims against the embedded code.
-/

namespace HappyServer

/-! ## Transaction Coordinator (src/sources/storage/inTx.ts) -/

/-- An error raised by the database driver: a Prisma
`PrismaClientKnownRequestError` carrying its error code, or any other
error. -/
inductive DbError where
  | knownRequest (code : String)
  | other (message : String)
deriving DecidableEq, Repr

/-- A post-commit callback registered via `afterTx`: when invoked it
either runs to completion, emitting a list of events, or it throws with
a message. -/
inductive Hook (ε : Type) where
  | emits (events : List ε)
  | throws (message : String)
deriving DecidableEq, Repr

/-- What one attempt of the unit-of-work function does when the wrapped
function is run by `db.$transaction`: either `fn` returns normally
(having applied a mutation to the store and registered callbacks on the
transaction handle), after which the commit may still fail, or `fn`
itself throws partway through (its partial mutation is rolled back). -/
inductive AttemptBehavior (σ ρ ε : Type) where
  | returns (mutate : σ → σ) (registered : List (Hook ε)) (result : ρ)
      (commitError : Option DbError)
  | throws (partialMutate : σ → σ) (registered : List (Hook ε)) (err : DbError)

/-- Semantics of `db.$transaction wrapped`: on success the mutation is
applied and the wrapped result `{ result, callbacks }` is returned; if
`fn` throws, or the commit fails, the transaction rolls back — the
store is unchanged and the registered callbacks are discarded with the
rest of the transaction-local state. -/
def dbTransaction {σ ρ ε : Type} (behavior : AttemptBehavior σ ρ ε) (s : σ) :
    Except DbError (σ × ρ × List (Hook ε)) :=
  match behavior with
  | .returns mutate registered result none => .ok (mutate s, result, registered)
  | .returns _ _ _ (some e) => .error e
  | .throws _ _ e => .error e

/-- The retry test in `inTx`: `e instanceof Prisma.PrismaClientKnownRequestError`
and `e.code === 'P2034'`. -/
def isRetryableConflict : DbError → Bool
  | .knownRequest code => code = "P2034"
  | .other _ => false

/-- The post-commit callback loop of `inTx`: each callback is invoked in
registration order inside `try { callback() } catch (e) { console.error(e) }`,
so a throwing callback contributes a log line and the loop continues.
Returns the emitted events in order, paired with the logged messages. -/
def runCallbacks {ε : Type} : List (Hook ε) → List ε × List String
  | [] => ([], [])
  | h :: rest =>
    let tail := runCallbacks rest
    match h with
    | .emits events => (events ++ tail.1, tail.2)
    | .throws message => (tail.1, message :: tail.2)

/-- The observable outcome of one call to `inTx`: the final store state,
the events emitted by post-commit callbacks, the messages logged by
swallowed callback failures, the backoff delays awaited (in ms), and
the returned result or the propagated error. -/
structure InTxResult (σ ρ ε : Type) where
  state : σ
  events : List ε
  hookLogs : List String
  delays : List Nat
  outcome : Except DbError ρ

/-- The `while (true)` loop of `inTx`, with the nondeterminism of the
database made explicit as an oracle giving the behavior of each attempt.
`counter` starts at 0; on a `P2034` error with `counter < 3` the counter
is incremented, `delay(counter * 100)` is awaited, and the whole unit of
work is retried; any other error — or a conflict with the budget
exhausted — is rethrown.  On success the collected callbacks are run
and the result is returned. -/
def inTxLoop {σ ρ ε : Type} (oracle : Nat → AttemptBehavior σ ρ ε) (s : σ)
    (attemptIdx counter : Nat) (delays : List Nat) : InTxResult σ ρ ε :=
  match dbTransaction (oracle attemptIdx) s with
  | .ok (s2, result, callbacks) =>
    let ran := runCallbacks callbacks
    { state := s2, events := ran.1, hookLogs := ran.2, delays := delays,
      outcome := .ok result }
  | .error e =>
    if h : isRetryableConflict e = true ∧ counter < 3 then
      inTxLoop oracle s (attemptIdx + 1) (counter + 1)
        (delays ++ [(counter + 1) * 100])
    else
      { state := s, events := [], hookLogs := [], delays := delays,
        outcome := .error e }
termination_by 4 - counter
decreasing_by omega

/-- `inTx fn`: run the wrapped unit of work from attempt 0 with retry
counter 0 and no delays awaited yet. -/
def inTx {σ ρ ε : Type} (oracle : Nat → AttemptBehavior σ ρ ε) (s : σ) :
    InTxResult σ ρ ε :=
  inTxLoop oracle s 0 0 []

/-! ## Sequence Allocator (src/unnamed/part_016, allocateUserSeq) -/

/-- The per-user sequence counters: the `seq` column of the `account`
table, keyed by account id. -/
def SeqStore : Type := String → Nat

/-- `allocateUserSeq`: a single atomic `db.account.update` with
`data: { seq: { increment: 1 } }` and `select: { seq: true }` — the
stored counter is incremented by 1 and the incremented value is
returned. -/
def allocateUserSeq (store : SeqStore) (accountId : String) : SeqStore × Nat :=
  let seq := store accountId + 1
  (fun id => if id = accountId then seq else store id, seq)

/-- A serialized trace of `allocateUserSeq` calls (each call is a single
atomic read-modify-write, so any concurrent execution is equivalent to
some interleaving, i.e. to a list of account ids in commit order).
Returns the list of (account id, returned seq) pairs in order. -/
def allocRun (store : SeqStore) : List String → List (String × Nat)
  | [] => []
  | accountId :: rest =>
    let step := allocateUserSeq store accountId
    (accountId, step.2) :: allocRun step.1 rest

/-- The values returned to a given user across a trace, in call order. -/
def returnedSeqsFor (store : SeqStore) (calls : List String) (u : String) :
    List Nat :=
  ((allocRun store calls).filter (fun p => p.1 = u)).map Prod.snd

/-! ## Versioned-entity (OCC) update handlers -/

/-- The account row fields touched by `POST /v1/account/settings`
(src/sources/app/api/routes/accountRoutes.ts). -/
structure Account where
  settings : Option String
  settingsVersion : Int
deriving DecidableEq, Repr

/-- Response of the account-settings endpoint. -/
inductive SettingsResponse where
  | success (version : Int)
  | versionMismatch (currentVersion : Int) (currentSettings : Option String)
  | serverError
deriving DecidableEq, Repr

/-- The atomic conditional write of the settings handler:
`db.account.updateMany` with `where: { id, settingsVersion: expectedVersion }`
returning the matched-row `count`. -/
def settingsCasWrite (a : Account) (settings : String) (expectedVersion : Int) :
    Account × Nat :=
  if a.settingsVersion = expectedVersion then
    ({ settings := some settings, settingsVersion := expectedVersion + 1 }, 1)
  else
    (a, 0)

/-- JavaScript truthiness of `x || 0` for the re-fetched version
(`account?.settingsVersion || 0`). -/
def jsOrZero : Int → Int
  | v => if v = 0 then 0 else v

/-- JavaScript truthiness of `x || null` for a nullable string
(`account?.settings || null`): an empty string is falsy. -/
def jsOrNull : Option String → Option String
  | some s => if s = "" then none else some s
  | none => none

/-- The `POST /v1/account/settings` handler, embedded sequentially over
the single account row it touches (the row keyed by the authenticated
user id): pre-read, version pre-check, conditional `updateMany`,
re-fetch on `count === 0`, success response `expectedVersion + 1`. -/
def updateAccountSettings (acc : Option Account) (settings : String)
    (expectedVersion : Int) : Option Account × SettingsResponse :=
  match acc with
  | none => (none, .serverError)
  | some currentUser =>
    if currentUser.settingsVersion ≠ expectedVersion then
      (some currentUser,
        .versionMismatch currentUser.settingsVersion currentUser.settings)
    else
      let written := settingsCasWrite currentUser settings expectedVersion
      if written.2 = 0 then
        (some written.1,
          .versionMismatch (jsOrZero written.1.settingsVersion)
            (jsOrNull written.1.settings))
      else
        (some written.1, .success (expectedVersion + 1))

/-- The machine row fields touched by the `machine-update-metadata` and
`machine-update-state` socket handlers (src/unnamed/part_008). -/
structure Machine where
  metadata : String
  metadataVersion : Int
  daemonState : Option String
  daemonStateVersion : Int
  active : Bool
  lastActiveAt : Int
deriving DecidableEq, Repr

/-- Response shape of the machine OCC socket handlers. -/
inductive MachineResponse where
  | success (version : Int) (value : String)
  | versionMismatch (version : Int) (value : Option String)
  | error (message : String)
deriving DecidableEq, Repr

/-- The atomic conditional write of `machine-update-metadata`:
`db.machine.updateMany` with `metadataVersion: expectedVersion` in the
`where` clause, setting `metadata` and `metadataVersion: expectedVersion + 1`
and deliberately not touching `active` or `lastActiveAt`. -/
def machineMetadataCasWrite (m : Machine) (metadata : String)
    (expectedVersion : Int) : Machine × Nat :=
  if m.metadataVersion = expectedVersion then
    ({ m with metadata := metadata, metadataVersion := expectedVersion + 1 }, 1)
  else
    (m, 0)

/-- The `machine-update-metadata` handler, embedded sequentially over
the machine row it resolves: resolve, version pre-check, conditional
`updateMany`, re-fetch on `count === 0`, success response
`expectedVersion + 1`. -/
def machineUpdateMetadata (machine : Option Machine) (metadata : String)
    (expectedVersion : Int) : Option Machine × MachineResponse :=
  match machine with
  | none => (none, .error "Machine not found")
  | some m =>
    if m.metadataVersion ≠ expectedVersion then
      (some m, .versionMismatch m.metadataVersion (some m.metadata))
    else
      let written := machineMetadataCasWrite m metadata expectedVersion
      if written.2 = 0 then
        (some written.1,
          .versionMismatch (jsOrZero written.1.metadataVersion)
            (some written.1.metadata))
      else
        (some written.1, .success (expectedVersion + 1) metadata)

/-- The atomic conditional write of `machine-update-state`:
`db.machine.updateMany` with `daemonStateVersion: expectedVersion` in
the `where` clause, setting `daemonState`,
`daemonStateVersion: expectedVersion + 1`, `active: true` and
`lastActiveAt: new Date()`. -/
def machineDaemonStateCasWrite (m : Machine) (daemonState : String)
    (expectedVersion : Int) (now : Int) : Machine × Nat :=
  if m.daemonStateVersion = expectedVersion then
    ({ m with
        daemonState := some daemonState,
        daemonStateVersion := expectedVersion + 1,
        active := true,
        lastActiveAt := now }, 1)
  else
    (m, 0)

/-- The `machine-update-state` handler, embedded sequentially over the
machine row it resolves. -/
def machineUpdateState (machine : Option Machine) (daemonState : String)
    (expectedVersion : Int) (now : Int) : Option Machine × MachineResponse :=
  match machine with
  | none => (none, .error "Machine not found")
  | some m =>
    if m.daemonStateVersion ≠ expectedVersion then
      (some m, .versionMismatch m.daemonStateVersion m.daemonState)
    else
      let written := machineDaemonStateCasWrite m daemonState expectedVersion now
      if written.2 = 0 then
        (some written.1,
          .versionMismatch (jsOrZero written.1.daemonStateVersion)
            written.1.daemonState)
      else
        (some written.1, .success (expectedVersion + 1) daemonState)

/-! ## KV mutation path (src/unnamed/part_006, kvMutate)

The store keeps decrypted bytes (abstracted as a type `β`); the wire
format is base64 strings, converted by the external `privacy-kit`
codec, abstracted as the parameters `enc`/`dec`. -/

/-- One row of `userKVStore` for the fixed authenticated account:
nullable bytes value and integer version. -/
structure KVEntry (β : Type) where
  value : Option β
  version : Int
deriving DecidableEq, Repr

/-- A single `KVMutation` from the request: key, nullable base64 value
(`null` means delete), and the always-required version (`-1` for a new
key). -/
structure KVMutation where
  key : String
  value : Option String
  version : Int
deriving DecidableEq, Repr

/-- One element of the `errors` array of a failed `kvMutate`: the key,
its current version and its current base64-encoded value (the `error`
field is always the literal `"version-mismatch"`). -/
structure KVMutateError where
  key : String
  version : Int
  value : Option String
deriving DecidableEq, Repr

/-- Result of `kvMutate`: `{ success: true, results }` or
`{ success: false, errors }`. -/
inductive KVMutateResult where
  | ok (results : List (String × Int))
  | failed (errors : List KVMutateError)
deriving DecidableEq, Repr

/-- JavaScript truthiness of `mutation.value ? ... : null`: the value is
used only when it is a non-null, non-empty string. -/
def strTruthy : Option String → Bool
  | some s => s ≠ ""
  | none => false

/-- The pre-validation loop of `kvMutate`: for each mutation,
`findUnique` the row, take `existing?.version ?? -1`, and if it differs
from the supplied version push a `version-mismatch` error carrying
`existing?.value ? encodeBase64(existing.value) : null`. -/
def kvValidate {β : Type} (enc : β → String) (store : String → Option (KVEntry β))
    (mutations : List KVMutation) : List KVMutateError :=
  mutations.filterMap (fun m =>
    let existing := store m.key
    let currentVersion := match existing with
      | some e => e.version
      | none => -1
    if currentVersion ≠ m.version then
      some { key := m.key, version := currentVersion,
             value := match existing with
               | some e => e.value.map enc
               | none => none }
    else
      none)

/-- The write step of `kvMutate` for one mutation, exactly as the apply
loop performs it: version `-1` runs `tx.userKVStore.create` with
version 0; any other version runs `tx.userKVStore.update` keyed only on
`accountId_key` — the update itself carries no version condition — and
sets version to `mutation.version + 1`.  Returns the new store and the
written row's version (`result.version`). -/
def kvWriteStep {β : Type} (dec : String → β) (store : String → Option (KVEntry β))
    (m : KVMutation) : (String → Option (KVEntry β)) × Int :=
  if m.version = -1 then
    let entry : KVEntry β :=
      { value := if strTruthy m.value then (m.value.map dec) else none,
        version := 0 }
    (fun k => if k = m.key then some entry else store k, 0)
  else
    let newVersion := m.version + 1
    let entry : KVEntry β :=
      { value := if strTruthy m.value then (m.value.map dec) else none,
        version := newVersion }
    (fun k => if k = m.key then some entry else store k, newVersion)

/-- The apply loop of `kvMutate`: perform each write in order,
collecting `results` (and the `changes` list for the bundled
notification, which mirrors `results` with the wire value). -/
def kvApplyAll {β : Type} (dec : String → β) (store : String → Option (KVEntry β)) :
    List KVMutation → (String → Option (KVEntry β)) × List (String × Int)
  | [] => (store, [])
  | m :: rest =>
    let step := kvWriteStep dec store m
    let tail := kvApplyAll dec step.1 rest
    (tail.1, (m.key, step.2) :: tail.2)

/-- The body of `kvMutate` (the unit of work run inside `inTx`):
pre-validate every mutation against the store; on any error return all
errors and write nothing; otherwise apply all writes and return the
results. -/
def kvMutateTx {β : Type} (enc : β → String) (dec : String → β)
    (store : String → Option (KVEntry β)) (mutations : List KVMutation) :
    (String → Option (KVEntry β)) × KVMutateResult :=
  let errors := kvValidate enc store mutations
  if errors.isEmpty then
    let applied := kvApplyAll dec store mutations
    (applied.1, .ok applied.2)
  else
    (store, .failed errors)

/-- Modelled from the spec: the atomic conditional update the spec
prescribes for every versioned entity ("WHERE current version =
expected"), applied to a KV row — the write itself checks, at the
instant of the write, that the stored version equals the supplied
version (with a missing row standing at the sentinel `-1`), applies
only on a match, and reports the matched-row count. -/
def kvCasWriteSpec {β : Type} (dec : String → β)
    (store : String → Option (KVEntry β)) (m : KVMutation) :
    (String → Option (KVEntry β)) × Nat :=
  let currentVersion := match store m.key with
    | some e => e.version
    | none => (-1 : Int)
  if currentVersion = m.version then
    let entry : KVEntry β :=
      { value := if strTruthy m.value then (m.value.map dec) else none,
        version := m.version + 1 }
    (fun k => if k = m.key then some entry else store k, 1)
  else
    (store, 0)

/-! ## Connection Registry / Event Router (src/sources/app/events/eventRouter.ts) -/

/-- A live client connection: its discriminant `connectionType`, the
owning user id, and the scope qualifier when the scope requires one.
`socketId` stands for the connection's identity (the JS object
identity of the connection record holding its socket). -/
inductive ClientConnection where
  | sessionScoped (socketId : Nat) (userId : String) (sessionId : String)
  | userScoped (socketId : Nat) (userId : String)
  | machineScoped (socketId : Nat) (userId : String) (machineId : String)
deriving DecidableEq, Repr

/-- The closed set of recipient-filter policies. -/
inductive RecipientFilter where
  | allInterestedInSession (sessionId : String)
  | userScopedOnly
  | machineScopedOnly (machineId : String)
  | allUserAuthenticatedConnections
deriving DecidableEq, Repr

/-- `EventRouter.shouldSendToConnection`, translated case by case from
the `switch` on `filter.type` and the nested `connectionType` tests. -/
def shouldSendToConnection (connection : ClientConnection)
    (filter : RecipientFilter) : Bool :=
  match filter with
  | .allInterestedInSession sessionId =>
    match connection with
    | .sessionScoped _ _ sid =>
      if sid ≠ sessionId then false else true
    | .machineScoped _ _ _ => false
    | .userScoped _ _ => true
  | .userScopedOnly =>
    match connection with
    | .userScoped _ _ => true
    | _ => false
  | .machineScopedOnly machineId =>
    match connection with
    | .userScoped _ _ => true
    | .machineScoped _ _ mid => mid = machineId
    | .sessionScoped _ _ _ => false
  | .allUserAuthenticatedConnections => true

/-- The router's `userConnections` map, as an association list from user
id to that user's connection set (a duplicate-free insertion-ordered
list, matching JS `Set` semantics over object identity). -/
structure RouterState where
  userConnections : List (String × List ClientConnection)
deriving DecidableEq, Repr

/-- JS `Set.add`: a no-op when the element is already present. -/
def setAdd (s : List ClientConnection) (c : ClientConnection) :
    List ClientConnection :=
  if c ∈ s then s else s ++ [c]

/-- `EventRouter.getConnections`: `this.userConnections.get(userId)`. -/
def getConnections (r : RouterState) (userId : String) :
    Option (List ClientConnection) :=
  (r.userConnections.find? (fun p => p.1 = userId)).map Prod.snd

/-- `EventRouter.addConnection`: create an empty set for the user when
absent, then add the connection to the user's set. -/
def addConnection (r : RouterState) (userId : String) (c : ClientConnection) :
    RouterState :=
  if (r.userConnections.find? (fun p => p.1 = userId)).isSome then
    ⟨r.userConnections.map (fun p =>
      if p.1 = userId then (p.1, setAdd p.2 c) else p)⟩
  else
    ⟨r.userConnections ++ [(userId, setAdd [] c)]⟩

/-- `EventRouter.removeConnection`: delete the connection from the
user's set when the set exists, and delete the map entry entirely when
the set becomes empty. -/
def removeConnection (r : RouterState) (userId : String) (c : ClientConnection) :
    RouterState :=
  match (r.userConnections.find? (fun p => p.1 = userId)).map Prod.snd with
  | none => r
  | some s =>
    let s2 := s.erase c
    if s2.isEmpty then
      ⟨r.userConnections.filter (fun p => p.1 ≠ userId)⟩
    else
      ⟨r.userConnections.map (fun p =>
        if p.1 = userId then (p.1, s2) else p)⟩

/-- The registry invariant claimed in C10: the user-to-connections map
never holds an empty connection set. -/
def routerInv (r : RouterState) : Prop :=
  ∀ p ∈ r.userConnections, p.2 ≠ []

/-- One registry operation. -/
inductive RouterOp where
  | add (userId : String) (c : ClientConnection)
  | remove (userId : String) (c : ClientConnection)
deriving DecidableEq, Repr

/-- Apply one registry operation. -/
def applyRouterOp (r : RouterState) : RouterOp → RouterState
  | .add userId c => addConnection r userId c
  | .remove userId c => removeConnection r userId c

/-- Apply a sequence of registry operations in order. -/
def applyRouterOps (r : RouterState) (ops : List RouterOp) : RouterState :=
  ops.foldl applyRouterOp r

/-- The router with no connections (module initialisation state). -/
def emptyRouter : RouterState := ⟨[]⟩

/-- `EventRouter.emit`, reduced to the set of connections the payload is
pushed to: look up the user's connection set (absent means a warn log
and no delivery), then keep exactly the connections that are not the
skipped sender and pass the recipient filter. -/
def emitTargets (r : RouterState) (userId : String) (filter : RecipientFilter)
    (skipSender : Option ClientConnection) : List ClientConnection :=
  match getConnections r userId with
  | none => []
  | some conns =>
    conns.filter (fun c =>
      (match skipSender with
       | some sender => c ≠ sender
       | none => true) && shouldSendToConnection c filter)

/-! ## Activity Cache (src/sources/app/presence/sessionCache.ts) -/

/-- A session/machine cache entry: validity deadline, last timestamp
actually persisted, nullable pending timestamp, owning user id. -/
structure CacheEntry where
  validUntil : Int
  lastUpdateSent : Int
  pendingUpdate : Option Int
  userId : String
deriving DecidableEq, Repr

/-- `CACHE_TTL`: 30 seconds in milliseconds. -/
def CACHE_TTL : Int := 30 * 1000

/-- `UPDATE_THRESHOLD`: 30 seconds in milliseconds. -/
def UPDATE_THRESHOLD : Int := 30 * 1000

/-- The in-memory state of the `ActivityCache` together with the
`lastActiveAt` columns it flushes into: sessions are keyed by session
id, machines by the composite key `accountId_id`. -/
structure ActivityState where
  sessionCache : List (String × CacheEntry)
  machineCache : List (String × CacheEntry)
  dbSessionLastActiveAt : String → Int
  dbMachineLastActiveAt : String × String → Int

/-- Look up a cache entry in a per-kind map. -/
def cacheLookup (cache : List (String × CacheEntry)) (id : String) :
    Option CacheEntry :=
  (cache.find? (fun p => p.1 = id)).map Prod.snd

/-- Replace the entry for `id` in a per-kind map. -/
def cacheSet (cache : List (String × CacheEntry)) (id : String)
    (e : CacheEntry) : List (String × CacheEntry) :=
  cache.map (fun p => if p.1 = id then (p.1, e) else p)

/-- `ActivityCache.queueSessionUpdate`: a miss returns `false` (the
caller should validate first); otherwise the timestamp is queued only
when `Math.abs(timestamp - cached.lastUpdateSent)` strictly exceeds the
30s threshold, else it is dropped and counted as skipped. -/
def queueSessionUpdate (st : ActivityState) (sessionId : String)
    (timestamp : Int) : ActivityState × Bool :=
  match cacheLookup st.sessionCache sessionId with
  | none => (st, false)
  | some cached =>
    if UPDATE_THRESHOLD < |timestamp - cached.lastUpdateSent| then
      let queued := { cached with pendingUpdate := some timestamp }
      ({ st with sessionCache := cacheSet st.sessionCache sessionId queued },
        true)
    else
      (st, false)

/-- `ActivityCache.queueMachineUpdate`: identical policy over the
machine cache. -/
def queueMachineUpdate (st : ActivityState) (machineId : String)
    (timestamp : Int) : ActivityState × Bool :=
  match cacheLookup st.machineCache machineId with
  | none => (st, false)
  | some cached =>
    if UPDATE_THRESHOLD < |timestamp - cached.lastUpdateSent| then
      let queued := { cached with pendingUpdate := some timestamp }
      ({ st with machineCache := cacheSet st.machineCache machineId queued },
        true)
    else
      (st, false)

/-- JS truthiness of `if (entry.pendingUpdate)`: a pending timestamp is
collected only when present and non-zero. -/
def pendingTruthy : Option Int → Bool
  | some t => t ≠ 0
  | none => false

/-- What the flush loop does to one cache entry: an entry with a truthy
pending timestamp has the pending value moved into `lastUpdateSent` and
its marker cleared; any other entry is untouched. -/
def flushEntry (e : CacheEntry) : CacheEntry :=
  if pendingTruthy e.pendingUpdate then
    { e with
       lastUpdateSent := e.pendingUpdate.getD 0,
       pendingUpdate := none }
  else e

/-- Flush one per-kind cache: update every entry via `flushEntry` and
report the (id, timestamp, userId) rows to be written for the entries
whose pending timestamp was truthy. -/
def collectFlush (cache : List (String × CacheEntry)) :
    List (String × CacheEntry) × List (String × Int × String) :=
  (cache.map (fun p => (p.1, flushEntry p.2)),
   cache.filterMap (fun p =>
     match p.2.pendingUpdate with
     | some t => if t ≠ 0 then some (p.1, t, p.2.userId) else none
     | none => none))

/-- Apply the collected session rows as `db.session.update` writes of
`lastActiveAt` keyed by session id. -/
def applySessionWrites (db : String → Int)
    (rows : List (String × Int × String)) : String → Int :=
  rows.foldl (fun db row =>
    fun id => if id = row.1 then row.2.1 else db id) db

/-- Apply the collected machine rows as `db.machine.update` writes of
`lastActiveAt` keyed by the composite `accountId_id`. -/
def applyMachineWrites (db : String × String → Int)
    (rows : List (String × Int × String)) : String × String → Int :=
  rows.foldl (fun db row =>
    fun key => if key = (row.2.2, row.1) then row.2.1 else db key) db

/-- `ActivityCache.flushPendingUpdates`: collect all pending session and
machine updates (clearing their markers and advancing
`lastUpdateSent`), then write each collected timestamp into the
corresponding `lastActiveAt` column. -/
def flushPendingUpdates (st : ActivityState) : ActivityState :=
  let sessions := collectFlush st.sessionCache
  let machines := collectFlush st.machineCache
  { sessionCache := sessions.1,
    machineCache := machines.1,
    dbSessionLastActiveAt :=
      applySessionWrites st.dbSessionLastActiveAt sessions.2,
    dbMachineLastActiveAt :=
      applyMachineWrites st.dbMachineLastActiveAt machines.2 }

/-- A concrete cache entry used to exercise the Activity Cache: last
flushed at timestamp 1000, no pending update. -/
def witnessEntry : CacheEntry :=
  { validUntil := 99, lastUpdateSent := 1000, pendingUpdate := none,
    userId := "u" }

/-- A concrete Activity Cache state holding one cached session `"s1"`
and one cached machine `"m1"`, over zeroed database columns. -/
def witnessActivityState : ActivityState :=
  { sessionCache := [("s1", witnessEntry)],
    machineCache := [("m1", witnessEntry)],
    dbSessionLastActiveAt := fun _ => 0,
    dbMachineLastActiveAt := fun _ => 0 }

/-! ## Concrete database behaviors used to exercise `inTx` -/

/-- A database that raises a serialization conflict on attempts 0 and 1
and commits on attempt 2, with callbacks registered during every
attempt. -/
def oracleCommitAfterConflicts : Nat → AttemptBehavior Nat Nat Nat
  | 0 => .throws (fun s => s + 7) [.emits [99]] (.knownRequest "P2034")
  | 1 => .throws (fun s => s + 8) [.emits [98]] (.knownRequest "P2034")
  | _ => .returns (fun s => s + 1) [.emits [42]] 5 none

/-- A database whose every attempt fails with a non-conflict error after
a partial mutation. -/
def oracleOtherError : Nat → AttemptBehavior Nat Nat Nat :=
  fun _ => .throws (fun s => s + 7) [.emits [99]] (.other "boom")

/-- A database whose every attempt fails with a serialization
conflict. -/
def oracleAllConflicts : Nat → AttemptBehavior Nat Nat Nat :=
  fun _ => .throws (fun s => s + 7) [.emits [99]] (.knownRequest "P2034")

/-- A database that conflicts on attempts 0, 1 and 2 and commits on
attempt 3. -/
def oracleConflictsThenCommit : Nat → AttemptBehavior Nat Nat Nat
  | 0 => .throws (fun s => s + 7) [] (.knownRequest "P2034")
  | 1 => .throws (fun s => s + 7) [] (.knownRequest "P2034")
  | 2 => .throws (fun s => s + 7) [] (.knownRequest "P2034")
  | _ => .returns (fun s => s + 1) [.emits [42]] 7 none

/-- A database that conflicts on attempt 0 and fails with a
non-conflict error on attempt 1. -/
def oracleConflictThenOther : Nat → AttemptBehavior Nat Nat Nat
  | 0 => .throws (fun s => s + 7) [] (.knownRequest "P2034")
  | _ => .throws (fun s => s + 7) [] (.other "boom")

/-- A database that commits on attempt 0 with a hook chain whose middle
hook throws. -/
def oracleHookFailure : Nat → AttemptBehavior Nat Nat Nat :=
  fun _ => .returns (fun s => s * 2)
    [.emits [1], .throws "hook-boom", .emits [2]] 9 none

/-! ## Theorems: Transaction Coordinator -/

/-- Whenever `inTxLoop` ends in an error, the store is exactly the store
it started from (every failed attempt rolled back) and no callback ran. -/
theorem inTxLoop_error_rollback {σ ρ ε : Type}
    (oracle : Nat → AttemptBehavior σ ρ ε) (s : σ) :
    ∀ (i c : Nat) (d : List Nat) (e : DbError),
      (inTxLoop oracle s i c d).outcome = .error e →
      (inTxLoop oracle s i c d).state = s ∧ (inTxLoop oracle s i c d).events = [] := by
  intro i c d
  induction i, c, d using inTxLoop.induct oracle s with
  | case1 i c d s2 result callbacks heq =>
      intro e herr
      rw [inTxLoop] at herr
      simp [heq] at herr
  | case2 i c d e2 heq hcond ih =>
      intro e herr
      rw [inTxLoop] at herr ⊢
      simp [heq, hcond] at herr ⊢
      exact ih e herr
  | case3 i c d e2 heq hcond =>
      intro e herr
      rw [inTxLoop] at herr ⊢
      simp [heq, hcond]

/-- C1: callbacks registered via `afterTx` run only after a successful
commit — a run of `inTx` that ends in an error leaves the store
untouched and emits nothing — and when attempts 0 and 1 fail with a
serialization conflict and attempt 2 commits, exactly the successful
attempt's mutation is applied and exactly the callbacks registered
during the successful attempt run (callbacks registered in the failed
attempts are discarded with the rollback), so a single registered
emitting callback yields exactly one event. -/
theorem inTx_commit_gated_emission :
    (∀ {σ ρ ε : Type} (oracle : Nat → AttemptBehavior σ ρ ε) (s : σ)
        (e : DbError),
      (inTx oracle s).outcome = .error e →
      (inTx oracle s).state = s ∧ (inTx oracle s).events = []) ∧
    (∀ {σ ρ ε : Type} (oracle : Nat → AttemptBehavior σ ρ ε) (s : σ)
        (pm1 pm2 f : σ → σ) (regs1 regs2 cbs : List (Hook ε)) (r : ρ)
        (ev : ε),
      oracle 0 = .throws pm1 regs1 (.knownRequest "P2034") →
      oracle 1 = .throws pm2 regs2 (.knownRequest "P2034") →
      oracle 2 = .returns f cbs r none →
      inTx oracle s =
        ⟨f s, (runCallbacks cbs).1, (runCallbacks cbs).2, [100, 200], .ok r⟩ ∧
      (cbs = [.emits [ev]] → (inTx oracle s).events = [ev])) := by
  constructor
  · intro σ ρ ε oracle s e herr
    exact inTxLoop_error_rollback oracle s 0 0 [] e herr
  · intro σ ρ ε oracle s pm1 pm2 f regs1 regs2 cbs r ev h0 h1 h2
    have hrun : inTx oracle s =
        ⟨f s, (runCallbacks cbs).1, (runCallbacks cbs).2, [100, 200], .ok r⟩ := by
      simp [inTx, inTxLoop, h0, h1, h2, dbTransaction, isRetryableConflict]
    refine ⟨hrun, fun hcbs => ?_⟩
    subst hcbs
    rw [hrun]
    simp [runCallbacks]

/-- C1 witness: conflicts on attempts 0 and 1 with callbacks registered
in each failed attempt, then a commit whose single callback emits one
event: the final store reflects only the committed mutation and exactly
one event is emitted. -/
theorem inTx_commit_gated_emission_witness :
    inTx oracleCommitAfterConflicts 0 = ⟨1, [42], [], [100, 200], .ok 5⟩ :=
  (inTx_commit_gated_emission.2 oracleCommitAfterConflicts 0
    (fun s => s + 7) (fun s => s + 8) (fun s => s + 1)
    [.emits [99]] [.emits [98]] [.emits [42]] 5 42 rfl rfl rfl).1

/-- C4: the retry test accepts exactly the Prisma serialization-conflict
code `P2034`; a non-conflict error on the first attempt propagates with
no retry and no delay; a conflict followed by a non-conflict error
propagates after the single 100ms backoff; four consecutive conflicts
exhaust the budget of 3 retries, await the delays 100ms, 200ms, 300ms
and propagate the conflict; and conflicts on attempts 0–2 followed by a
commit on attempt 3 succeed after the same three delays. -/
theorem inTx_retry_policy :
    (∀ (e : DbError), isRetryableConflict e = true ↔ e = .knownRequest "P2034") ∧
    (∀ {σ ρ ε : Type} (oracle : Nat → AttemptBehavior σ ρ ε) (s : σ)
        (pm : σ → σ) (regs : List (Hook ε)) (e : DbError),
      oracle 0 = .throws pm regs e → isRetryableConflict e = false →
      inTx oracle s = ⟨s, [], [], [], .error e⟩) ∧
    (∀ {σ ρ ε : Type} (oracle : Nat → AttemptBehavior σ ρ ε) (s : σ)
        (pm0 pm1 : σ → σ) (regs0 regs1 : List (Hook ε)) (e : DbError),
      oracle 0 = .throws pm0 regs0 (.knownRequest "P2034") →
      oracle 1 = .throws pm1 regs1 e → isRetryableConflict e = false →
      inTx oracle s = ⟨s, [], [], [100], .error e⟩) ∧
    (∀ {σ ρ ε : Type} (oracle : Nat → AttemptBehavior σ ρ ε) (s : σ)
        (pm0 pm1 pm2 pm3 : σ → σ) (regs0 regs1 regs2 regs3 : List (Hook ε)),
      oracle 0 = .throws pm0 regs0 (.knownRequest "P2034") →
      oracle 1 = .throws pm1 regs1 (.knownRequest "P2034") →
      oracle 2 = .throws pm2 regs2 (.knownRequest "P2034") →
      oracle 3 = .throws pm3 regs3 (.knownRequest "P2034") →
      inTx oracle s =
        ⟨s, [], [], [100, 200, 300], .error (.knownRequest "P2034")⟩) ∧
    (∀ {σ ρ ε : Type} (oracle : Nat → AttemptBehavior σ ρ ε) (s : σ)
        (pm0 pm1 pm2 f : σ → σ) (regs0 regs1 regs2 cbs : List (Hook ε)) (r : ρ),
      oracle 0 = .throws pm0 regs0 (.knownRequest "P2034") →
      oracle 1 = .throws pm1 regs1 (.knownRequest "P2034") →
      oracle 2 = .throws pm2 regs2 (.knownRequest "P2034") →
      oracle 3 = .returns f cbs r none →
      inTx oracle s =
        ⟨f s, (runCallbacks cbs).1, (runCallbacks cbs).2, [100, 200, 300],
          .ok r⟩) := by
  refine ⟨?_, ?_, ?_, ?_, ?_⟩
  · intro e
    cases e with
    | knownRequest code => simp [isRetryableConflict]
    | other m => simp [isRetryableConflict]
  · intro σ ρ ε oracle s pm regs e h0 he
    simp [inTx, inTxLoop, h0, dbTransaction, he]
  · intro σ ρ ε oracle s pm0 pm1 regs0 regs1 e h0 h1 he
    have hp : isRetryableConflict (DbError.knownRequest "P2034") = true := rfl
    simp [inTx, inTxLoop, h0, h1, dbTransaction, hp, he]
  · intro σ ρ ε oracle s pm0 pm1 pm2 pm3 regs0 regs1 regs2 regs3 h0 h1 h2 h3
    simp [inTx, inTxLoop, h0, h1, h2, h3, dbTransaction, isRetryableConflict]
  · intro σ ρ ε oracle s pm0 pm1 pm2 f regs0 regs1 regs2 cbs r h0 h1 h2 h3
    simp [inTx, inTxLoop, h0, h1, h2, h3, dbTransaction, isRetryableConflict]

/-- C4 witness: the four retry scenarios at concrete databases. -/
theorem inTx_retry_policy_witness :
    inTx oracleOtherError (0 : Nat) = ⟨0, [], [], [], .error (.other "boom")⟩ ∧
    inTx oracleConflictThenOther (0 : Nat) =
      ⟨0, [], [], [100], .error (.other "boom")⟩ ∧
    inTx oracleAllConflicts (0 : Nat) =
      ⟨0, [], [], [100, 200, 300], .error (.knownRequest "P2034")⟩ ∧
    inTx oracleConflictsThenCommit (0 : Nat) =
      ⟨1, [42], [], [100, 200, 300], .ok 7⟩ :=
  ⟨inTx_retry_policy.2.1 oracleOtherError 0 (fun s => s + 7) [.emits [99]]
      (.other "boom") rfl rfl,
   inTx_retry_policy.2.2.1 oracleConflictThenOther 0 (fun s => s + 7)
      (fun s => s + 7) [] [] (.other "boom") rfl rfl rfl,
   inTx_retry_policy.2.2.2.1 oracleAllConflicts 0 (fun s => s + 7)
      (fun s => s + 7) (fun s => s + 7) (fun s => s + 7)
      [.emits [99]] [.emits [99]] [.emits [99]] [.emits [99]] rfl rfl rfl rfl,
   inTx_retry_policy.2.2.2.2 oracleConflictsThenCommit 0 (fun s => s + 7)
      (fun s => s + 7) (fun s => s + 7) (fun s => s + 1)
      [] [] [] [.emits [42]] 7 rfl rfl rfl rfl⟩

/-- Running the post-commit callback loop over a concatenation of hook
lists concatenates, in order, the events they emit and the failures
they log. -/
theorem runCallbacks_append {ε : Type} (hooks1 hooks2 : List (Hook ε)) :
    runCallbacks (hooks1 ++ hooks2) =
      ((runCallbacks hooks1).1 ++ (runCallbacks hooks2).1,
       (runCallbacks hooks1).2 ++ (runCallbacks hooks2).2) := by
  induction hooks1 with
  | nil => simp [runCallbacks]
  | cons h rest ih =>
      cases h with
      | emits events => simp [runCallbacks, ih]
      | throws message => simp [runCallbacks, ih]

/-- C6: after a successful commit the registered hooks run in
registration order, and a hook that throws is logged and swallowed —
the hooks after it still run, the committed mutation stands, and the
unit of work's result is returned unchanged. -/
theorem inTx_hook_failure_swallowed :
    (∀ {ε : Type} (hooks1 hooks2 : List (Hook ε)),
      runCallbacks (hooks1 ++ hooks2) =
        ((runCallbacks hooks1).1 ++ (runCallbacks hooks2).1,
         (runCallbacks hooks1).2 ++ (runCallbacks hooks2).2)) ∧
    (∀ {σ ρ ε : Type} (oracle : Nat → AttemptBehavior σ ρ ε) (s : σ)
        (f : σ → σ) (pre post : List (Hook ε)) (m : String) (r : ρ),
      oracle 0 = .returns f (pre ++ .throws m :: post) r none →
      inTx oracle s =
        ⟨f s, (runCallbacks pre).1 ++ (runCallbacks post).1,
         (runCallbacks pre).2 ++ m :: (runCallbacks post).2, [], .ok r⟩) := by
  constructor
  · intro ε hooks1 hooks2
    exact runCallbacks_append hooks1 hooks2
  · intro σ ρ ε oracle s f pre post m r h0
    have hsplit := runCallbacks_append pre (Hook.throws m :: post)
    simp [inTx, inTxLoop, h0, dbTransaction, hsplit, runCallbacks]

/-- C6 witness: a committed transaction whose middle hook throws still
emits the first and third hooks' events in order, logs the failure,
keeps the committed mutation, and returns the result. -/
theorem inTx_hook_failure_swallowed_witness :
    inTx oracleHookFailure 3 = ⟨6, [1, 2], ["hook-boom"], [], .ok 9⟩ :=
  inTx_hook_failure_swallowed.2 oracleHookFailure 3 (fun s => s * 2)
    [.emits [1]] [.emits [2]] "hook-boom" 9 rfl

/-! ## Theorems: Sequence Allocator -/

/-- Unfolding one step of an allocation trace: the head call contributes
its returned value to its own user's stream, and the tail runs against
the incremented store. -/
theorem returnedSeqsFor_cons (store : SeqStore) (c : String)
    (rest : List String) (u : String) :
    returnedSeqsFor store (c :: rest) u =
      (if c = u then [store c + 1] else []) ++
        returnedSeqsFor (fun id => if id = c then store c + 1 else store id)
          rest u := by
  by_cases hc : c = u <;>
    simp [returnedSeqsFor, allocRun, allocateUserSeq, hc]

/-- Every value returned to user `u` during a trace strictly exceeds the
counter value `u` had when the trace started. -/
theorem returnedSeqsFor_gt (calls : List String) :
    ∀ (store : SeqStore) (u : String) (v : Nat),
      v ∈ returnedSeqsFor store calls u → store u < v := by
  induction calls with
  | nil =>
      intro store u v hv
      simp [returnedSeqsFor, allocRun] at hv
  | cons c rest ih =>
      intro store u v hv
      rw [returnedSeqsFor_cons] at hv
      rcases List.mem_append.mp hv with hv | hv
      · by_cases hc : c = u
        · subst hc
          simp at hv
          omega
        · simp [hc] at hv
      · have htail := ih _ u v hv
        by_cases hc : u = c
        · subst hc
          simp at htail
          omega
        · simpa [hc] using htail

/-- The per-user streams of returned sequence numbers are strictly
increasing along any trace. -/
theorem returnedSeqsFor_pairwise (calls : List String) :
    ∀ (store : SeqStore) (u : String),
      (returnedSeqsFor store calls u).Pairwise (· < ·) := by
  induction calls with
  | nil =>
      intro store u
      simp [returnedSeqsFor, allocRun]
  | cons c rest ih =>
      intro store u
      rw [returnedSeqsFor_cons]
      by_cases hc : c = u
      · subst hc
        simp only [if_pos rfl, List.singleton_append]
        refine List.Pairwise.cons (fun v hv => ?_) (ih _ c)
        have := returnedSeqsFor_gt rest _ c v hv
        simpa using this
      · simpa [hc] using ih _ u

/-- C5: `allocateUserSeq` is a single atomic read-modify-write — it
bumps exactly the given account's counter by 1 and returns the bumped
value, leaving every other account untouched — and therefore, along any
serialized trace of calls, the values returned for any one user are
strictly increasing (in particular, no two calls for the same user ever
return the same value). -/
theorem allocateUserSeq_strictly_increasing :
    (∀ (store : SeqStore) (accountId : String),
      (allocateUserSeq store accountId).2 = store accountId + 1 ∧
      (allocateUserSeq store accountId).1 accountId = store accountId + 1 ∧
      ∀ (other : String), other ≠ accountId →
        (allocateUserSeq store accountId).1 other = store other) ∧
    (∀ (store : SeqStore) (calls : List String) (u : String),
      (returnedSeqsFor store calls u).Pairwise (· < ·)) := by
  constructor
  · intro store accountId
    refine ⟨rfl, by simp [allocateUserSeq], fun other hne => ?_⟩
    simp [allocateUserSeq, hne]
  · intro store calls u
    exact returnedSeqsFor_pairwise calls store u

/-- C5 witness: an allocation leaves a different account's counter
untouched. -/
theorem allocateUserSeq_strictly_increasing_witness :
    (allocateUserSeq (fun _ => 41) "u").1 "w" = 41 :=
  (allocateUserSeq_strictly_increasing.1 (fun _ => 41) "u").2.2 "w" (by decide)

/-! ## Theorems: versioned-entity (OCC) updates -/

/-- C2: for each versioned-entity update — account settings, machine
metadata, machine daemon state — a stale `expectedVersion` leaves the
stored value and version unchanged and returns the current version and
current value from the store, while a matching `expectedVersion`
applies the update and makes both the stored version and the returned
version equal to `expectedVersion + 1`. -/
theorem versioned_update_exactness :
    (∀ (a : Account) (settings : String) (expectedVersion : Int),
      (a.settingsVersion ≠ expectedVersion →
        updateAccountSettings (some a) settings expectedVersion =
          (some a, .versionMismatch a.settingsVersion a.settings)) ∧
      (a.settingsVersion = expectedVersion →
        updateAccountSettings (some a) settings expectedVersion =
          (some { settings := some settings,
                  settingsVersion := expectedVersion + 1 },
            .success (expectedVersion + 1)))) ∧
    (∀ (m : Machine) (metadata : String) (expectedVersion : Int),
      (m.metadataVersion ≠ expectedVersion →
        machineUpdateMetadata (some m) metadata expectedVersion =
          (some m, .versionMismatch m.metadataVersion (some m.metadata))) ∧
      (m.metadataVersion = expectedVersion →
        machineUpdateMetadata (some m) metadata expectedVersion =
          (some { m with
                   metadata := metadata,
                   metadataVersion := expectedVersion + 1 },
            .success (expectedVersion + 1) metadata))) ∧
    (∀ (m : Machine) (daemonState : String) (expectedVersion now : Int),
      (m.daemonStateVersion ≠ expectedVersion →
        machineUpdateState (some m) daemonState expectedVersion now =
          (some m, .versionMismatch m.daemonStateVersion m.daemonState)) ∧
      (m.daemonStateVersion = expectedVersion →
        machineUpdateState (some m) daemonState expectedVersion now =
          (some { m with
                   daemonState := some daemonState,
                   daemonStateVersion := expectedVersion + 1,
                   active := true,
                   lastActiveAt := now },
            .success (expectedVersion + 1) daemonState))) := by
  refine ⟨fun a settings expectedVersion => ⟨fun hne => ?_, fun heq => ?_⟩,
          fun m metadata expectedVersion => ⟨fun hne => ?_, fun heq => ?_⟩,
          fun m daemonState expectedVersion now => ⟨fun hne => ?_, fun heq => ?_⟩⟩
  · simp [updateAccountSettings, hne]
  · simp [updateAccountSettings, settingsCasWrite, heq]
  · simp [machineUpdateMetadata, hne]
  · simp [machineUpdateMetadata, machineMetadataCasWrite, heq]
  · simp [machineUpdateState, hne]
  · simp [machineUpdateState, machineDaemonStateCasWrite, heq]

/-- C2 witness: a stale and a fresh settings update, a fresh metadata
update and a stale daemon-state update at concrete rows. -/
theorem versioned_update_exactness_witness :
    updateAccountSettings (some ⟨none, 5⟩) "s" 3 =
      (some ⟨none, 5⟩, .versionMismatch 5 none) ∧
    updateAccountSettings (some ⟨none, 5⟩) "s" 5 =
      (some ⟨some "s", 6⟩, .success 6) ∧
    machineUpdateMetadata (some ⟨"m", 2, none, 0, false, 0⟩) "n" 2 =
      (some ⟨"n", 3, none, 0, false, 0⟩, .success 3 "n") ∧
    machineUpdateState (some ⟨"m", 2, none, 0, false, 0⟩) "d" 1 77 =
      (some ⟨"m", 2, none, 0, false, 0⟩, .versionMismatch 0 none) :=
  ⟨(versioned_update_exactness.1 ⟨none, 5⟩ "s" 3).1 (by decide),
   (versioned_update_exactness.1 ⟨none, 5⟩ "s" 5).2 rfl,
   (versioned_update_exactness.2.1 ⟨"m", 2, none, 0, false, 0⟩ "n" 2).2 rfl,
   (versioned_update_exactness.2.2 ⟨"m", 2, none, 0, false, 0⟩ "d" 1 77).1
     (by decide)⟩

/-! ## Theorems: Event Router -/

/-- C3: delivery matches the recipient-filter table exactly —
`all-interested-in-session(sid)` reaches every user-scoped connection,
a session-scoped connection only when its session id equals `sid`, and
never a machine-scoped connection; `user-scoped-only` reaches only
user-scoped connections; `machine-scoped-only(mid)` reaches every
user-scoped connection, never a session-scoped one, and a
machine-scoped connection only when its machine id equals `mid`;
`all-authenticated` reaches every connection; and `emit` (with no
sender to skip) pushes to exactly the user's registered connections
that pass the filter. -/
theorem recipient_filter_table :
    (∀ (cid : Nat) (uid sid sid2 : String),
      shouldSendToConnection (.sessionScoped cid uid sid)
        (.allInterestedInSession sid2) = decide (sid = sid2)) ∧
    (∀ (cid : Nat) (uid sid2 : String),
      shouldSendToConnection (.userScoped cid uid)
        (.allInterestedInSession sid2) = true) ∧
    (∀ (cid : Nat) (uid mid sid2 : String),
      shouldSendToConnection (.machineScoped cid uid mid)
        (.allInterestedInSession sid2) = false) ∧
    (∀ (cid : Nat) (uid : String),
      shouldSendToConnection (.userScoped cid uid) .userScopedOnly = true) ∧
    (∀ (cid : Nat) (uid sid : String),
      shouldSendToConnection (.sessionScoped cid uid sid) .userScopedOnly
        = false) ∧
    (∀ (cid : Nat) (uid mid : String),
      shouldSendToConnection (.machineScoped cid uid mid) .userScopedOnly
        = false) ∧
    (∀ (cid : Nat) (uid mid2 : String),
      shouldSendToConnection (.userScoped cid uid) (.machineScopedOnly mid2)
        = true) ∧
    (∀ (cid : Nat) (uid sid mid2 : String),
      shouldSendToConnection (.sessionScoped cid uid sid)
        (.machineScopedOnly mid2) = false) ∧
    (∀ (cid : Nat) (uid mid mid2 : String),
      shouldSendToConnection (.machineScoped cid uid mid)
        (.machineScopedOnly mid2) = decide (mid = mid2)) ∧
    (∀ (c : ClientConnection),
      shouldSendToConnection c .allUserAuthenticatedConnections = true) ∧
    (∀ (r : RouterState) (uid : String) (filter : RecipientFilter)
        (c : ClientConnection),
      c ∈ emitTargets r uid filter none ↔
        ∃ conns, getConnections r uid = some conns ∧ c ∈ conns ∧
          shouldSendToConnection c filter = true) := by
  refine ⟨fun cid uid sid sid2 => ?_, fun cid uid sid2 => rfl,
          fun cid uid mid sid2 => rfl, fun cid uid => rfl,
          fun cid uid sid => rfl, fun cid uid mid => rfl,
          fun cid uid mid2 => rfl, fun cid uid sid mid2 => rfl,
          fun cid uid mid mid2 => rfl, fun c => ?_, ?_⟩
  · by_cases h : sid = sid2 <;> simp [shouldSendToConnection, h]
  · cases c <;> rfl
  · intro r uid filter c
    cases hg : getConnections r uid with
    | none => simp [emitTargets, hg]
    | some conns => simp [emitTargets, hg, List.mem_filter]

/-- JS `Set.add` never produces an empty set. -/
theorem setAdd_ne_nil (s : List ClientConnection) (c : ClientConnection) :
    setAdd s c ≠ [] := by
  by_cases h : c ∈ s
  · simpa [setAdd, h] using List.ne_nil_of_mem h
  · simp [setAdd, h]

/-- `addConnection` preserves the non-empty-sets invariant. -/
theorem routerInv_addConnection (r : RouterState) (u : String)
    (c : ClientConnection) (hinv : routerInv r) :
    routerInv (addConnection r u c) := by
  intro p hp
  unfold addConnection at hp
  split at hp
  · rcases List.mem_map.mp hp with ⟨q, hq, hpq⟩
    by_cases hqu : q.1 = u
    · rw [if_pos hqu] at hpq
      rw [← hpq]
      exact setAdd_ne_nil q.2 c
    · rw [if_neg hqu] at hpq
      rw [← hpq]
      exact hinv q hq
  · rcases List.mem_append.mp hp with hmem | hmem
    · exact hinv p hmem
    · simp at hmem
      rw [hmem]
      exact setAdd_ne_nil [] c

/-- `removeConnection` preserves the non-empty-sets invariant: it
deletes the whole map entry when the removed connection was the last
one. -/
theorem routerInv_removeConnection (r : RouterState) (u : String)
    (c : ClientConnection) (hinv : routerInv r) :
    routerInv (removeConnection r u c) := by
  unfold removeConnection
  cases hfind : r.userConnections.find? (fun p => p.1 = u) with
  | none => simpa [hfind] using hinv
  | some q =>
    simp only [hfind, Option.map_some']
    by_cases hemp : (q.2.erase c).isEmpty
    · rw [if_pos hemp]
      intro p hp
      exact hinv p (List.mem_of_mem_filter hp)
    · rw [if_neg hemp]
      intro p hp
      rcases List.mem_map.mp hp with ⟨q2, hq2, hpq⟩
      by_cases hqu : q2.1 = u
      · rw [if_pos hqu] at hpq
        rw [← hpq]
        intro hnil
        simp only at hnil
        rw [hnil] at hemp
        simp at hemp
      · rw [if_neg hqu] at hpq
        rw [← hpq]
        exact hinv q2 hq2

/-- Any sequence of registry operations preserves the invariant. -/
theorem routerInv_applyRouterOps (ops : List RouterOp) :
    ∀ (r : RouterState), routerInv r → routerInv (applyRouterOps r ops) := by
  induction ops with
  | nil => intro r hinv; exact hinv
  | cons op rest ih =>
      intro r hinv
      cases op with
      | add u c => exact ih _ (routerInv_addConnection r u c hinv)
      | remove u c => exact ih _ (routerInv_removeConnection r u c hinv)

/-- C10: the user-to-connections map never maps a user to an empty set —
`addConnection` and `removeConnection` preserve the invariant, and after
any sequence of add/remove operations from the initial empty router,
`getConnections` returns either `none` or a non-empty set. -/
theorem getConnections_never_empty :
    (∀ (r : RouterState) (u : String) (c : ClientConnection),
      routerInv r → routerInv (addConnection r u c)) ∧
    (∀ (r : RouterState) (u : String) (c : ClientConnection),
      routerInv r → routerInv (removeConnection r u c)) ∧
    (∀ (ops : List RouterOp) (userId : String),
      getConnections (applyRouterOps emptyRouter ops) userId = none ∨
      ∃ conns, getConnections (applyRouterOps emptyRouter ops) userId
          = some conns ∧ conns ≠ []) := by
  refine ⟨routerInv_addConnection, routerInv_removeConnection, ?_⟩
  intro ops userId
  have hinv : routerInv (applyRouterOps emptyRouter ops) :=
    routerInv_applyRouterOps ops emptyRouter (by intro p hp; cases hp)
  cases hfind : (applyRouterOps emptyRouter ops).userConnections.find?
      (fun p => p.1 = userId) with
  | none =>
      left
      simp [getConnections, hfind]
  | some q =>
      right
      exact ⟨q.2, by simp [getConnections, hfind],
        hinv q (List.mem_of_find?_eq_some hfind)⟩

/-- C10 witness: the invariant holds after adding one connection to the
empty router. -/
theorem getConnections_never_empty_witness :
    routerInv (addConnection emptyRouter "u" (.userScoped 0 "u")) :=
  getConnections_never_empty.1 emptyRouter "u" (.userScoped 0 "u")
    (by intro p hp; cases hp)

/-! ## Theorems: KV mutation path -/

/-- C9: over any store whose existing rows carry non-negative versions,
a single KV mutation supplying version `-1` succeeds exactly when the
key does not yet exist — creating the entry with stored and returned
version 0 and touching no other key — and when the key already exists
it fails with a `version-mismatch` error carrying the key's current
version and current (base64-encoded) value, writing nothing. -/
theorem kv_sentinel_create {β : Type} (enc : β → String) (dec : String → β)
    (store : String → Option (KVEntry β)) (key : String)
    (newValue : Option String)
    (hstore : ∀ (k : String) (e : KVEntry β), store k = some e → 0 ≤ e.version) :
    (store key = none →
      (kvMutateTx enc dec store [⟨key, newValue, -1⟩]).2 = .ok [(key, 0)] ∧
      (kvMutateTx enc dec store [⟨key, newValue, -1⟩]).1 key =
        some ⟨if strTruthy newValue then newValue.map dec else none, 0⟩ ∧
      ∀ (k : String), k ≠ key →
        (kvMutateTx enc dec store [⟨key, newValue, -1⟩]).1 k = store k) ∧
    (∀ (e : KVEntry β), store key = some e →
      kvMutateTx enc dec store [⟨key, newValue, -1⟩] =
        (store, .failed [⟨key, e.version, e.value.map enc⟩])) := by
  constructor
  · intro hnone
    refine ⟨?_, ?_, ?_⟩
    · simp [kvMutateTx, kvValidate, kvApplyAll, kvWriteStep, hnone]
    · simp [kvMutateTx, kvValidate, kvApplyAll, kvWriteStep, hnone]
    · intro k hk
      simp [kvMutateTx, kvValidate, kvApplyAll, kvWriteStep, hnone, hk]
  · intro e he
    have hver : e.version ≠ -1 := by
      have := hstore key e he
      omega
    simp [kvMutateTx, kvValidate, he, hver]

/-- C9 witness: creating a fresh key with version `-1` in the empty
store returns version 0. -/
theorem kv_sentinel_create_witness :
    (kvMutateTx (fun _ : Bool => "x") (fun _ => true) (fun _ => none)
      [⟨"k", some "v", -1⟩]).2 = .ok [("k", 0)] :=
  ((kv_sentinel_create (fun _ : Bool => "x") (fun _ => true) (fun _ => none)
    "k" (some "v") (fun _ e hke => nomatch hke)).1 rfl).1

/-- C7 counterexample: the KV write step applied at a store whose key
`"k"` holds version 5, with a mutation expecting version 3, still
writes (the stored version becomes 4), whereas the spec's atomic
conditional update leaves the row at version 5 and matches no row — so
the KV mutation path does not apply its change conditionally on the
stored version at the instant of the write. -/
theorem kv_write_not_conditional_cex :
    (kvWriteStep (fun s => s)
        (fun k => if k = "k" then some ⟨none, 5⟩ else none)
        ⟨"k", none, 3⟩).1 "k" = some ⟨none, 4⟩ ∧
    (kvCasWriteSpec (fun s => s)
        (fun k => if k = "k" then some ⟨none, 5⟩ else none)
        ⟨"k", none, 3⟩).1 "k" = some ⟨none, 5⟩ ∧
    (kvCasWriteSpec (fun s => s)
        (fun k => if k = "k" then some ⟨none, 5⟩ else none)
        ⟨"k", none, 3⟩).2 = 0 :=
  ⟨rfl, rfl, rfl⟩

/-- C7 (amended): the account-settings, machine-metadata and
machine-daemon-state writes are atomic conditional updates — the write
matches a row exactly when the stored version equals the expected one,
and leaves the row unchanged otherwise — while the KV mutation path's
per-key write is unconditional: for any store whatsoever it writes the
entry at version `mutation.version + 1`, regardless of the version
stored at the instant of the write (the KV version check lives in a
separate read-and-compare pass inside the serializable transaction). -/
theorem occ_conditional_write_amended :
    (∀ (a : Account) (s : String) (v : Int),
      (a.settingsVersion = v → (settingsCasWrite a s v).2 = 1) ∧
      (a.settingsVersion ≠ v → settingsCasWrite a s v = (a, 0))) ∧
    (∀ (m : Machine) (md : String) (v : Int),
      (m.metadataVersion = v → (machineMetadataCasWrite m md v).2 = 1) ∧
      (m.metadataVersion ≠ v → machineMetadataCasWrite m md v = (m, 0))) ∧
    (∀ (m : Machine) (ds : String) (v now : Int),
      (m.daemonStateVersion = v →
        (machineDaemonStateCasWrite m ds v now).2 = 1) ∧
      (m.daemonStateVersion ≠ v →
        machineDaemonStateCasWrite m ds v now = (m, 0))) ∧
    (∀ {β : Type} (dec : String → β) (store : String → Option (KVEntry β))
        (mtn : KVMutation),
      mtn.version ≠ -1 →
      (kvWriteStep dec store mtn).2 = mtn.version + 1 ∧
      (kvWriteStep dec store mtn).1 mtn.key =
        some ⟨if strTruthy mtn.value then mtn.value.map dec else none,
              mtn.version + 1⟩) := by
  refine ⟨fun a s v => ⟨fun h => ?_, fun h => ?_⟩,
          fun m md v => ⟨fun h => ?_, fun h => ?_⟩,
          fun m ds v now => ⟨fun h => ?_, fun h => ?_⟩,
          fun dec store mtn h => ⟨?_, ?_⟩⟩
  · simp [settingsCasWrite, h]
  · simp [settingsCasWrite, h]
  · simp [machineMetadataCasWrite, h]
  · simp [machineMetadataCasWrite, h]
  · simp [machineDaemonStateCasWrite, h]
  · simp [machineDaemonStateCasWrite, h]
  · simp [kvWriteStep, h]
  · simp [kvWriteStep, h]

/-- C7 witness: a stale settings write matches no row, while the KV
write step at the same staleness still writes version 4. -/
theorem occ_conditional_write_amended_witness :
    settingsCasWrite ⟨none, 5⟩ "s" 3 = (⟨none, 5⟩, 0) ∧
    (kvWriteStep (fun s => s) (fun _ => none) ⟨"k", none, 3⟩).2 = 4 :=
  ⟨(occ_conditional_write_amended.1 ⟨none, 5⟩ "s" 3).2 (by decide),
   (occ_conditional_write_amended.2.2.2 (fun s => s) (fun _ => none)
     ⟨"k", none, 3⟩ (by decide)).1⟩

/-! ## Theorems: Activity Cache -/

theorem cacheLookup_cons (q : String × CacheEntry)
    (rest : List (String × CacheEntry)) (id : String) :
    cacheLookup (q :: rest) id =
      if q.1 = id then some q.2 else cacheLookup rest id := by
  by_cases h : q.1 = id <;> simp [cacheLookup, List.find?_cons, h]

theorem mem_of_cacheLookup {cache : List (String × CacheEntry)} {id : String}
    {e : CacheEntry} (h : cacheLookup cache id = some e) : (id, e) ∈ cache := by
  unfold cacheLookup at h
  cases hfind : cache.find? (fun p => p.1 = id) with
  | none => rw [hfind] at h; cases h
  | some q =>
      rw [hfind] at h
      have hq := List.find?_some hfind
      have hmem := List.mem_of_find?_eq_some hfind
      simp at hq h
      rw [← hq, ← h]
      exact hmem

theorem cacheLookup_cacheSet (cache : List (String × CacheEntry)) (id : String)
    (e : CacheEntry) :
    cacheLookup (cacheSet cache id e) id
      = (cacheLookup cache id).map (fun _ => e) := by
  induction cache with
  | nil => rfl
  | cons p rest ih =>
      simp only [cacheSet, List.map_cons] at ih ⊢
      by_cases hp : p.1 = id
      · rw [if_pos hp]
        rw [cacheLookup_cons, cacheLookup_cons]
        simp [hp]
      · rw [if_neg hp]
        rw [cacheLookup_cons, cacheLookup_cons]
        simp only [if_neg hp]
        exact ih

theorem cacheSet_keyed {cache : List (String × CacheEntry)} {id : String}
    {e : CacheEntry} : ∀ p ∈ cacheSet cache id e, p.1 = id → p.2 = e := by
  intro p hp hkey
  rcases List.mem_map.mp hp with ⟨q, hq, hpq⟩
  by_cases hqi : q.1 = id
  · rw [if_pos hqi] at hpq
    rw [← hpq]
  · rw [if_neg hqi] at hpq
    rw [← hpq] at hkey
    exact absurd hkey hqi

theorem cacheSet_mem {cache : List (String × CacheEntry)} {id : String}
    {e0 : CacheEntry} (h : (id, e0) ∈ cache) (e : CacheEntry) :
    (id, e) ∈ cacheSet cache id e := by
  have := List.mem_map_of_mem (fun p => if p.1 = id then (p.1, e) else p) h
  simpa [cacheSet] using this

theorem cacheLookup_collectFlush (cache : List (String × CacheEntry))
    (id : String) :
    cacheLookup (collectFlush cache).1 id
      = (cacheLookup cache id).map flushEntry := by
  induction cache with
  | nil => rfl
  | cons p rest ih =>
      simp only [collectFlush, List.map_cons] at ih ⊢
      rw [cacheLookup_cons, cacheLookup_cons]
      by_cases hp : p.1 = id
      · simp [hp]
      · simp only [if_neg hp]
        exact ih

theorem collectFlush_row_mem {cache : List (String × CacheEntry)} {id : String}
    {e : CacheEntry} {t : Int} (hmem : (id, e) ∈ cache)
    (hpend : e.pendingUpdate = some t) (ht : t ≠ 0) :
    (id, t, e.userId) ∈ (collectFlush cache).2 := by
  simp only [collectFlush]
  refine List.mem_filterMap.mpr ⟨(id, e), hmem, ?_⟩
  simp [hpend, ht]

theorem collectFlush_row_sound {cache : List (String × CacheEntry)}
    {row : String × Int × String} (hrow : row ∈ (collectFlush cache).2) :
    ∃ e, (row.1, e) ∈ cache ∧ e.pendingUpdate = some row.2.1 ∧
      e.userId = row.2.2 := by
  simp only [collectFlush] at hrow
  rcases List.mem_filterMap.mp hrow with ⟨p, hp, hmk⟩
  cases hpend : p.2.pendingUpdate with
  | none => rw [hpend] at hmk; cases hmk
  | some t =>
      rw [hpend] at hmk
      by_cases ht : t = 0
      · simp [ht] at hmk
      · simp [ht] at hmk
        subst hmk
        exact ⟨p.2, by simpa using hp, hpend, rfl⟩


theorem applySessionWrites_not_keyed (rows : List (String × Int × String)) :
    ∀ (db : String → Int) (id : String),
      (∀ row ∈ rows, row.1 ≠ id) → applySessionWrites db rows id = db id := by
  induction rows with
  | nil => intro db id hno; rfl
  | cons r rest ih =>
      intro db id hno
      have hr : r.1 ≠ id := hno r (List.mem_cons_self r rest)
      have hrest : ∀ row ∈ rest, row.1 ≠ id :=
        fun row hrow => hno row (List.mem_cons_of_mem r hrow)
      simp only [applySessionWrites, List.foldl_cons] at ih ⊢
      rw [ih _ id hrest]
      rw [if_neg (fun h => hr (Eq.symm h))]

theorem applySessionWrites_keyed (rows : List (String × Int × String)) :
    ∀ (db : String → Int) (id : String) (t : Int),
      (∃ row ∈ rows, row.1 = id) →
      (∀ row ∈ rows, row.1 = id → row.2.1 = t) →
      applySessionWrites db rows id = t := by
  induction rows with
  | nil => intro db id t hex hall; rcases hex with ⟨row, hrow, _⟩; cases hrow
  | cons r rest ih =>
      intro db id t hex hall
      have hallrest : ∀ row ∈ rest, row.1 = id → row.2.1 = t :=
        fun row hrow => hall row (List.mem_cons_of_mem r hrow)
      simp only [applySessionWrites, List.foldl_cons] at ih ⊢
      by_cases hrest : ∃ row ∈ rest, row.1 = id
      · exact ih _ id t hrest hallrest
      · have hno : ∀ row ∈ rest, row.1 ≠ id := by
          intro row hrow heq
          exact hrest ⟨row, hrow, heq⟩
        have hr : r.1 = id := by
          rcases hex with ⟨row, hrow, heq⟩
          rcases List.mem_cons.mp hrow with hrr | hrr
          · rw [← hrr]; exact heq
          · exact absurd heq (hno row hrr)
        have := applySessionWrites_not_keyed rest
          (fun k => if k = r.1 then r.2.1 else db k) id hno
        simp only [applySessionWrites] at this
        rw [this]
        rw [if_pos hr.symm]
        exact hall r (List.mem_cons_self r rest) hr

theorem applyMachineWrites_not_keyed (rows : List (String × Int × String)) :
    ∀ (db : String × String → Int) (uid id : String),
      (∀ row ∈ rows, row.1 ≠ id) →
      applyMachineWrites db rows (uid, id) = db (uid, id) := by
  induction rows with
  | nil => intro db uid id hno; rfl
  | cons r rest ih =>
      intro db uid id hno
      have hr : r.1 ≠ id := hno r (List.mem_cons_self r rest)
      have hrest : ∀ row ∈ rest, row.1 ≠ id :=
        fun row hrow => hno row (List.mem_cons_of_mem r hrow)
      simp only [applyMachineWrites, List.foldl_cons] at ih ⊢
      rw [ih _ uid id hrest]
      have : ((uid, id) = (r.2.2, r.1)) = False := by
        simp
        intro _ h
        exact absurd h.symm hr
      simp [this]

theorem applyMachineWrites_keyed (rows : List (String × Int × String)) :
    ∀ (db : String × String → Int) (uid id : String) (t : Int),
      (∃ row ∈ rows, row.1 = id) →
      (∀ row ∈ rows, row.1 = id → row.2 = (t, uid)) →
      applyMachineWrites db rows (uid, id) = t := by
  induction rows with
  | nil => intro db uid id t hex hall; rcases hex with ⟨row, hrow, _⟩; cases hrow
  | cons r rest ih =>
      intro db uid id t hex hall
      have hallrest : ∀ row ∈ rest, row.1 = id → row.2 = (t, uid) :=
        fun row hrow => hall row (List.mem_cons_of_mem r hrow)
      simp only [applyMachineWrites, List.foldl_cons] at ih ⊢
      by_cases hrest : ∃ row ∈ rest, row.1 = id
      · exact ih _ uid id t hrest hallrest
      · have hno : ∀ row ∈ rest, row.1 ≠ id := by
          intro row hrow heq
          exact hrest ⟨row, hrow, heq⟩
        have hr : r.1 = id := by
          rcases hex with ⟨row, hrow, heq⟩
          rcases List.mem_cons.mp hrow with hrr | hrr
          · rw [← hrr]; exact heq
          · exact absurd heq (hno row hrr)
        have hval := hall r (List.mem_cons_self r rest) hr
        have hfold := applyMachineWrites_not_keyed rest
          (fun key => if key = (r.2.2, r.1) then r.2.1 else db key) uid id hno
        simp only [applyMachineWrites] at hfold
        rw [hfold]
        have hkey : (uid, id) = (r.2.2, r.1) := by
          rw [hr, hval]
        rw [if_pos hkey, hval]


theorem queueSessionUpdate_reject {st : ActivityState} {id : String}
    {e : CacheEntry} (ts : Int) (hlook : cacheLookup st.sessionCache id = some e)
    (hsmall : ¬ UPDATE_THRESHOLD < |ts - e.lastUpdateSent|) :
    queueSessionUpdate st id ts = (st, false) := by
  simp [queueSessionUpdate, hlook, hsmall]

theorem queueSessionUpdate_accept {st : ActivityState} {id : String}
    {e : CacheEntry} (ts : Int) (hlook : cacheLookup st.sessionCache id = some e)
    (hbig : UPDATE_THRESHOLD < |ts - e.lastUpdateSent|) :
    queueSessionUpdate st id ts =
      ({ st with
          sessionCache :=
            cacheSet st.sessionCache id { e with pendingUpdate := some ts } },
        true) := by
  simp [queueSessionUpdate, hlook, hbig]

theorem queueMachineUpdate_reject {st : ActivityState} {id : String}
    {e : CacheEntry} (ts : Int) (hlook : cacheLookup st.machineCache id = some e)
    (hsmall : ¬ UPDATE_THRESHOLD < |ts - e.lastUpdateSent|) :
    queueMachineUpdate st id ts = (st, false) := by
  simp [queueMachineUpdate, hlook, hsmall]

theorem queueMachineUpdate_accept {st : ActivityState} {id : String}
    {e : CacheEntry} (ts : Int) (hlook : cacheLookup st.machineCache id = some e)
    (hbig : UPDATE_THRESHOLD < |ts - e.lastUpdateSent|) :
    queueMachineUpdate st id ts =
      ({ st with
          machineCache :=
            cacheSet st.machineCache id { e with pendingUpdate := some ts } },
        true) := by
  simp [queueMachineUpdate, hlook, hbig]


theorem session_flush_latest {st : ActivityState} {id : String}
    {e : CacheEntry} {T : Int}
    (hlook : cacheLookup st.sessionCache id = some e)
    (hT : e.lastUpdateSent = T) (hT0 : 0 ≤ T) :
    (queueSessionUpdate st id (T + 31000)).2 = true ∧
    (queueSessionUpdate (queueSessionUpdate st id (T + 31000)).1 id
      (T + 40000)).2 = true ∧
    (flushPendingUpdates (queueSessionUpdate
        (queueSessionUpdate st id (T + 31000)).1 id
        (T + 40000)).1).dbSessionLastActiveAt id = T + 40000 ∧
    cacheLookup (flushPendingUpdates (queueSessionUpdate
        (queueSessionUpdate st id (T + 31000)).1 id
        (T + 40000)).1).sessionCache id =
      some { e with lastUpdateSent := T + 40000, pendingUpdate := none } := by
  have habs1 : UPDATE_THRESHOLD < |T + 31000 - e.lastUpdateSent| := by
    rw [hT]
    have h1 : T + 31000 - T = 31000 := by omega
    rw [h1]
    decide
  have hq1 := queueSessionUpdate_accept (T + 31000) hlook habs1
  have hlook1 : cacheLookup (queueSessionUpdate st id (T + 31000)).1.sessionCache
      id = some { e with pendingUpdate := some (T + 31000) } := by
    rw [hq1]
    simp [cacheLookup_cacheSet, hlook]
  have habs2 : UPDATE_THRESHOLD <
      |T + 40000 - ({ e with pendingUpdate := some (T + 31000) }
        : CacheEntry).lastUpdateSent| := by
    show UPDATE_THRESHOLD < |T + 40000 - e.lastUpdateSent|
    rw [hT]
    have h1 : T + 40000 - T = 40000 := by omega
    rw [h1]
    decide
  have hq2 := queueSessionUpdate_accept (T + 40000) hlook1 habs2
  have hsc2 : (queueSessionUpdate (queueSessionUpdate st id (T + 31000)).1 id
        (T + 40000)).1.sessionCache
      = cacheSet
          (cacheSet st.sessionCache id { e with pendingUpdate := some (T + 31000) })
          id { e with pendingUpdate := some (T + 40000) } := by
    rw [hq2, hq1]
  have hdb2 : (queueSessionUpdate (queueSessionUpdate st id (T + 31000)).1 id
        (T + 40000)).1.dbSessionLastActiveAt = st.dbSessionLastActiveAt := by
    rw [hq2, hq1]
  refine ⟨by rw [hq1], by rw [hq2], ?_, ?_⟩
  · simp only [flushPendingUpdates]
    rw [hsc2, hdb2]
    have hm0 : (id, e) ∈ st.sessionCache := mem_of_cacheLookup hlook
    have hm1 := cacheSet_mem hm0 ({ e with pendingUpdate := some (T + 31000) })
    have hm2 := cacheSet_mem hm1 ({ e with pendingUpdate := some (T + 40000) })
    have hrow := collectFlush_row_mem hm2 rfl
      (show (T + 40000 : Int) ≠ 0 by omega)
    refine applySessionWrites_keyed _ _ id (T + 40000)
      ⟨(id, T + 40000, e.userId), hrow, rfl⟩ ?_
    intro row hrowmem hkey
    rcases collectFlush_row_sound hrowmem with ⟨e3, hmem3, hpend3, huid3⟩
    rw [hkey] at hmem3
    have he3 := cacheSet_keyed (id, e3) hmem3 rfl
    simp only at he3
    rw [he3] at hpend3
    simp at hpend3
    omega
  · simp only [flushPendingUpdates]
    rw [hsc2]
    rw [cacheLookup_collectFlush, cacheLookup_cacheSet, cacheLookup_cacheSet,
      hlook]
    have hpt : pendingTruthy (some (T + 40000)) = true := by
      simp [pendingTruthy]
      omega
    simp [flushEntry, hpt]


theorem machine_flush_latest {st : ActivityState} {id : String}
    {e : CacheEntry} {T : Int}
    (hlook : cacheLookup st.machineCache id = some e)
    (hT : e.lastUpdateSent = T) (hT0 : 0 ≤ T) :
    (queueMachineUpdate st id (T + 31000)).2 = true ∧
    (queueMachineUpdate (queueMachineUpdate st id (T + 31000)).1 id
      (T + 40000)).2 = true ∧
    (flushPendingUpdates (queueMachineUpdate
        (queueMachineUpdate st id (T + 31000)).1 id
        (T + 40000)).1).dbMachineLastActiveAt (e.userId, id) = T + 40000 ∧
    cacheLookup (flushPendingUpdates (queueMachineUpdate
        (queueMachineUpdate st id (T + 31000)).1 id
        (T + 40000)).1).machineCache id =
      some { e with lastUpdateSent := T + 40000, pendingUpdate := none } := by
  have habs1 : UPDATE_THRESHOLD < |T + 31000 - e.lastUpdateSent| := by
    rw [hT]
    have h1 : T + 31000 - T = 31000 := by omega
    rw [h1]
    decide
  have hq1 := queueMachineUpdate_accept (T + 31000) hlook habs1
  have hlook1 : cacheLookup (queueMachineUpdate st id (T + 31000)).1.machineCache
      id = some { e with pendingUpdate := some (T + 31000) } := by
    rw [hq1]
    simp [cacheLookup_cacheSet, hlook]
  have habs2 : UPDATE_THRESHOLD <
      |T + 40000 - ({ e with pendingUpdate := some (T + 31000) }
        : CacheEntry).lastUpdateSent| := by
    show UPDATE_THRESHOLD < |T + 40000 - e.lastUpdateSent|
    rw [hT]
    have h1 : T + 40000 - T = 40000 := by omega
    rw [h1]
    decide
  have hq2 := queueMachineUpdate_accept (T + 40000) hlook1 habs2
  have hsc2 : (queueMachineUpdate (queueMachineUpdate st id (T + 31000)).1 id
        (T + 40000)).1.machineCache
      = cacheSet
          (cacheSet st.machineCache id { e with pendingUpdate := some (T + 31000) })
          id { e with pendingUpdate := some (T + 40000) } := by
    rw [hq2, hq1]
  have hdb2 : (queueMachineUpdate (queueMachineUpdate st id (T + 31000)).1 id
        (T + 40000)).1.dbMachineLastActiveAt = st.dbMachineLastActiveAt := by
    rw [hq2, hq1]
  refine ⟨by rw [hq1], by rw [hq2], ?_, ?_⟩
  · simp only [flushPendingUpdates]
    rw [hsc2, hdb2]
    have hm0 : (id, e) ∈ st.machineCache := mem_of_cacheLookup hlook
    have hm1 := cacheSet_mem hm0 ({ e with pendingUpdate := some (T + 31000) })
    have hm2 := cacheSet_mem hm1 ({ e with pendingUpdate := some (T + 40000) })
    have hrow := collectFlush_row_mem hm2 rfl
      (show (T + 40000 : Int) ≠ 0 by omega)
    refine applyMachineWrites_keyed _ _ e.userId id (T + 40000)
      ⟨(id, T + 40000, e.userId), hrow, rfl⟩ ?_
    intro row hrowmem hkey
    rcases collectFlush_row_sound hrowmem with ⟨e3, hmem3, hpend3, huid3⟩
    rw [hkey] at hmem3
    have he3 := cacheSet_keyed (id, e3) hmem3 rfl
    simp only at he3
    rw [he3] at hpend3
    rw [he3] at huid3
    simp at hpend3 huid3
    refine Prod.ext_iff.mpr ⟨?_, ?_⟩
    · simp
      omega
    · simp
      rw [← huid3]
  · simp only [flushPendingUpdates]
    rw [hsc2]
    rw [cacheLookup_collectFlush, cacheLookup_cacheSet, cacheLookup_cacheSet,
      hlook]
    have hpt : pendingTruthy (some (T + 40000)) = true := by
      simp [pendingTruthy]
      omega
    simp [flushEntry, hpt]

/-- C8: with the 30s coalescing threshold, a queued timestamp only 10s
past the last flush is rejected (returning `false` and leaving the
state untouched) while one 31s past is accepted; and after two accepted
queue calls the next flush persists exactly the latest queued timestamp
into the entity's `lastActiveAt` column — not the intermediate one —
and clears the entity's pending marker, for sessions and machines
alike. -/
theorem activity_write_coalescing :
    (∀ (st : ActivityState) (id : String) (e : CacheEntry) (T : Int),
      cacheLookup st.sessionCache id = some e → e.lastUpdateSent = T →
      queueSessionUpdate st id (T + 10000) = (st, false)) ∧
    (∀ (st : ActivityState) (id : String) (e : CacheEntry) (T : Int),
      cacheLookup st.machineCache id = some e → e.lastUpdateSent = T →
      queueMachineUpdate st id (T + 10000) = (st, false)) ∧
    (∀ (st : ActivityState) (id : String) (e : CacheEntry) (T : Int),
      cacheLookup st.sessionCache id = some e → e.lastUpdateSent = T →
      0 ≤ T →
      (queueSessionUpdate st id (T + 31000)).2 = true ∧
      (queueSessionUpdate (queueSessionUpdate st id (T + 31000)).1 id
        (T + 40000)).2 = true ∧
      (flushPendingUpdates (queueSessionUpdate
          (queueSessionUpdate st id (T + 31000)).1 id
          (T + 40000)).1).dbSessionLastActiveAt id = T + 40000 ∧
      cacheLookup (flushPendingUpdates (queueSessionUpdate
          (queueSessionUpdate st id (T + 31000)).1 id
          (T + 40000)).1).sessionCache id =
        some { e with lastUpdateSent := T + 40000, pendingUpdate := none }) ∧
    (∀ (st : ActivityState) (id : String) (e : CacheEntry) (T : Int),
      cacheLookup st.machineCache id = some e → e.lastUpdateSent = T →
      0 ≤ T →
      (queueMachineUpdate st id (T + 31000)).2 = true ∧
      (queueMachineUpdate (queueMachineUpdate st id (T + 31000)).1 id
        (T + 40000)).2 = true ∧
      (flushPendingUpdates (queueMachineUpdate
          (queueMachineUpdate st id (T + 31000)).1 id
          (T + 40000)).1).dbMachineLastActiveAt (e.userId, id)
        = T + 40000 ∧
      cacheLookup (flushPendingUpdates (queueMachineUpdate
          (queueMachineUpdate st id (T + 31000)).1 id
          (T + 40000)).1).machineCache id =
        some { e with lastUpdateSent := T + 40000, pendingUpdate := none }) := by
  refine ⟨fun st id e T hlook hT => ?_, fun st id e T hlook hT => ?_,
          fun st id e T hlook hT hT0 => session_flush_latest hlook hT hT0,
          fun st id e T hlook hT hT0 => machine_flush_latest hlook hT hT0⟩
  · refine queueSessionUpdate_reject _ hlook ?_
    rw [hT]
    have h1 : T + 10000 - T = 10000 := by omega
    rw [h1]
    decide
  · refine queueMachineUpdate_reject _ hlook ?_
    rw [hT]
    have h1 : T + 10000 - T = 10000 := by omega
    rw [h1]
    decide

/-- C8 witness: on the concrete cached state (last flush at 1000), a
queue at 11000 is rejected, queues at 32000 then 41000 are accepted,
and the flush persists 41000 for both the session and the machine. -/
theorem activity_write_coalescing_witness :
    queueSessionUpdate witnessActivityState "s1" 11000
      = (witnessActivityState, false) ∧
    (flushPendingUpdates (queueSessionUpdate
        (queueSessionUpdate witnessActivityState "s1" 32000).1 "s1"
        41000).1).dbSessionLastActiveAt "s1" = 41000 ∧
    (flushPendingUpdates (queueMachineUpdate
        (queueMachineUpdate witnessActivityState "m1" 32000).1 "m1"
        41000).1).dbMachineLastActiveAt ("u", "m1") = 41000 :=
  ⟨activity_write_coalescing.1 witnessActivityState "s1" witnessEntry 1000
      rfl rfl,
   (activity_write_coalescing.2.2.1 witnessActivityState "s1" witnessEntry 1000
      rfl rfl (by decide)).2.2.1,
   (activity_write_coalescing.2.2.2 witnessActivityState "m1" witnessEntry 1000
      rfl rfl (by decide)).2.2.1⟩

end HappyServer
